import Mathlib

/-!
Verification of the capability dispatch and execution-reporting runtime
described in spec.md, against a shallow embedding of its components.
The Python SDK implementation itself is not included in this checkout
(only its test-suite and an example agent are), so each component is
modelled from the specification text, with observable details pinned by
the tests under src/sdk/python/tests and src/tests/functional.
-/

namespace AgentField

/-! ## Namespace Composer (spec section 4.2) -/

/-- A character that may appear in a normalized segment: alphanumeric and
a fixed point of lowercasing. -/
def goodChar (c : Char) : Bool := c.isAlphanum && (c.toLower == c)

/-- Modelled from the spec: section 4.2 Namespace Composer, `normalize`
(implementation file agentfield/router.py is absent from this checkout).
Scans the characters of a user-supplied namespace string, accumulating
lowercased alphanumeric characters into the current segment and treating
every non-alphanumeric character as a separator; empty segments (from
leading, trailing or duplicate separators) are not emitted. -/
def segmentsAux : List Char → List Char → List (List Char)
  | [], acc => if acc = [] then [] else [acc.reverse]
  | c :: cs, acc =>
    if c.isAlphanum then segmentsAux cs (c.toLower :: acc)
    else if acc = [] then segmentsAux cs acc
    else acc.reverse :: segmentsAux cs []

/-- Modelled from the spec: `normalize(prefix) -> sequence of segments`
(spec section 4.2): lowercase alphanumeric segments, non-alphanumeric
characters dropped as separators, no empty segments. -/
def normalize (p : String) : List String :=
  (segmentsAux p.data []).map (fun cs => ⟨cs⟩)

/-- Joins character-level segments with the canonical separator. -/
def joinUnderscore : List (List Char) → List Char
  | [] => []
  | [s] => s
  | s :: rest => s ++ '_' :: joinUnderscore rest

/-- Modelled from the spec: joining segments with the canonical separator. -/
def joinSegs (segs : List String) : String :=
  ⟨joinUnderscore (segs.map String.data)⟩

/-- Modelled from the spec: `to_id(segments, leaf_name)` joins segments and
leaf with the canonical separator (spec section 4.2). -/
def to_id (segs : List String) (leaf : String) : String :=
  joinSegs (segs ++ [leaf])

/-- The normalized prefix rendered back as a string (segments joined with
the canonical separator). -/
def normalizeStr (p : String) : String := joinSegs (normalize p)

/-- The coordinator-visible composed capability id, a pure function of the
declared prefix and the leaf name. -/
def composedId (pfx leaf : String) : String := to_id (normalize pfx) leaf

/-- Ids produced by registering a list of (prefix, leaf) declarations, in
declaration order. -/
def registeredIds (decls : List (String × String)) : List String :=
  decls.map (fun d => composedId d.1 d.2)

/-! ## Status Reporter (spec section 4.6) -/

/-- Modelled from the spec: section 4.6 Status Reporter retry loop (the
implementation's `_post_execution_status` is absent from this checkout;
its observable behavior is pinned by
src/sdk/python/tests/test_async_execution.py, which records waits of 1
then 2 seconds for failures at attempts 1 and 2). `succeeds n` tells
whether the n-th delivery attempt (1-based) reaches the coordinator;
arguments are the current attempt number and the remaining attempt
budget; the result is the number of attempts made and the sequence of
waits performed between attempts, the wait after failed attempt n being n. -/
def reportGo (succeeds : Nat → Bool) : Nat → Nat → Nat × List Nat
  | _, 0 => (0, [])
  | attempt, remaining + 1 =>
    if succeeds attempt then (1, [])
    else if remaining = 0 then (1, [])
    else
      let r := reportGo succeeds (attempt + 1) remaining
      (r.1 + 1, attempt :: r.2)

/-- Attempts made and waits recorded when delivering one status report
with the given per-attempt outcome oracle and retry budget. -/
def report (succeeds : Nat → Bool) (max_retries : Nat) : Nat × List Nat :=
  reportGo succeeds 1 max_retries

/-- Boolean check that a list of waits is non-decreasing. -/
def nondecreasing : List Nat → Bool
  | [] => true
  | [_] => true
  | a :: b :: r => decide (a ≤ b) && nondecreasing (b :: r)

/-! ## Execution Context Tracker (spec section 4.4) -/

/-- Inbound identity headers of an invocation. -/
structure Headers where
  workflow_id : Option String
  execution_id : Option String
  parent_execution_id : Option String
deriving DecidableEq

/-- Execution status of one invocation (spec section 3). -/
inductive CtxStatus
  | pending
  | running
  | succeeded
  | failed
deriving DecidableEq

/-- One ExecutionContext per invocation (spec section 3). -/
structure ExecutionContext where
  workflow_id : String
  execution_id : String
  parent_execution_id : String
  capability_id : String
  status : CtxStatus
deriving DecidableEq

/-- Modelled from the spec: section 4.4 `derive(inbound_headers)` — an
inbound execution id is adopted verbatim, else the freshly minted one is
used; an inbound workflow id is adopted, else a new one is minted and the
invocation becomes the workflow root; `parent_execution_id` comes from the
inbound parent header, else it is left empty. `mintedWf` and `mintedExec`
stand for the fresh ids this node mints for this invocation. -/
def derive (h : Headers) (mintedWf mintedExec : String) (capId : String) :
    ExecutionContext :=
  { workflow_id := h.workflow_id.getD mintedWf
    execution_id := h.execution_id.getD mintedExec
    parent_execution_id := h.parent_execution_id.getD ""
    capability_id := capId
    status := CtxStatus.pending }

/-- Modelled from the spec: the identity a nested local capability call
carries — the current execution's id becomes the child's parent, the
workflow id is inherited unchanged, and no execution id is supplied (the
child invocation mints its own). -/
def localCallHeaders (parent : ExecutionContext) : Headers :=
  { workflow_id := some parent.workflow_id
    execution_id := none
    parent_execution_id := some parent.execution_id }

/-! ## Dispatcher (spec section 4.5) -/

/-- A registered capability: coordinator-visible id and handler; the
handler returns either a result or a captured error. -/
structure Capability (α : Type) where
  id : String
  handler : α → Except String α

/-- The process-wide capability table (spec section 4.1). -/
structure Registry (α : Type) where
  caps : List (Capability α)

/-- Modelled from the spec: `resolve(id)` looks the capability up by id
and fails when it is absent. -/
def resolve {α : Type} (r : Registry α) (capId : String) : Option (Capability α) :=
  r.caps.find? (fun c => c.id == capId)

/-- Reply/report status distinguishing success, failure, the detached-mode
acknowledgment and the not-found client error. -/
inductive RStatus
  | succeeded
  | failed
  | accepted
  | notFound
deriving DecidableEq

/-- A reply to the invoking caller. -/
structure Response (α : Type) where
  code : Nat
  status : RStatus
  result : Option α
  error : Option String
deriving DecidableEq

/-- Observable events of one dispatch, in order: context creation, the
reply to the caller, handler completion, and status-report calls handed
to the Status Reporter. -/
inductive Event (α : Type)
  | contextCreated (ctx : ExecutionContext)
  | reply (r : Response α)
  | handlerCompleted (execId : String)
  | statusReport (execId : String) (status : RStatus) (result : Option α)
      (error : Option String)
deriving DecidableEq

/-- Whether an event is a status-report call to the coordinator. -/
def isReport {α : Type} : Event α → Bool
  | Event.statusReport _ _ _ _ => true
  | _ => false

/-- Events produced after the acknowledgment in detached mode: the handler
runs to completion and exactly one terminal status report, carrying the
terminal status and the result-or-error payload, is handed to the Status
Reporter. -/
def runDetached {α : Type} (cap : Capability α) (ctx : ExecutionContext) (payload : α) :
    List (Event α) :=
  match cap.handler payload with
  | Except.ok v =>
      [Event.handlerCompleted ctx.execution_id,
       Event.statusReport ctx.execution_id RStatus.succeeded (some v) none]
  | Except.error e =>
      [Event.handlerCompleted ctx.execution_id,
       Event.statusReport ctx.execution_id RStatus.failed none (some e)]

/-- Modelled from the spec: section 4.5 `handle(capability_id, payload,
inbound_headers)`. Resolution failure yields a not-found reply with no
context created and no report; otherwise a context is derived. Detached
mode (async execution enabled and a coordinator-assigned execution id
present inbound) acknowledges with 202/accepted carrying no result before
the handler completes, then hands exactly one terminal report to the
Status Reporter. Synchronous mode runs the handler inline and the reply
itself carries the result or error; no report is sent. -/
def dispatch {α : Type} (reg : Registry α) (asyncEnabled : Bool) (capId : String)
    (payload : α) (h : Headers) (mintedWf mintedExec : String) : List (Event α) :=
  match resolve reg capId with
  | none => [Event.reply ⟨404, RStatus.notFound, none, none⟩]
  | some cap =>
    let ctx := derive h mintedWf mintedExec capId
    if asyncEnabled && h.execution_id.isSome then
      Event.contextCreated ctx :: Event.reply ⟨202, RStatus.accepted, none, none⟩ ::
        runDetached cap ctx payload
    else
      match cap.handler payload with
      | Except.ok v =>
          [Event.contextCreated ctx, Event.handlerCompleted ctx.execution_id,
           Event.reply ⟨200, RStatus.succeeded, some v, none⟩]
      | Except.error e =>
          [Event.contextCreated ctx, Event.handlerCompleted ctx.execution_id,
           Event.reply ⟨500, RStatus.failed, none, some e⟩]

/-! ## Registration Client (spec section 4.3) -/

/-- Modelled from the spec: `build_base_url(explicit, env_override,
default_host, port)` — a non-empty explicit argument wins, else a
non-empty environment-level override, else a default synthesized from the
local host and port. -/
def build_base_url (explicit envOverride defaultHost : String) (port : Nat) : String :=
  if explicit ≠ "" then explicit
  else if envOverride ≠ "" then envOverride
  else defaultHost ++ ":" ++ toString port

/-- Modelled from the spec: resolution of the externally reachable
callback host (explicit argument over environment override over the
default host), before the serving port is appended. -/
def resolve_callback_host (explicit envOverride defaultHost : String) : String :=
  if explicit ≠ "" then explicit
  else if envOverride ≠ "" then envOverride
  else defaultHost

/-- The node-side state the registration call updates. -/
structure AgentState where
  node_id : String
  base_url : String
  reasoner_ids : List String
  skill_ids : List String
deriving DecidableEq

/-- The record announced to the coordinator (spec section 3). -/
structure RegistrationRecord where
  node_id : String
  base_url : String
  reasoner_ids : List String
  skill_ids : List String
deriving DecidableEq

/-- Modelled from the spec: registration announces the node's externally
reachable base address — the resolved callback host with the serving port
appended as a colon-port suffix — together with the capability list, and
records the same address on the agent itself (pinned by
src/sdk/python/tests/test_agent_integration.py). -/
def register_with_agentfield_server (a : AgentState)
    (explicit envOverride defaultHost : String) (port : Nat) :
    AgentState × RegistrationRecord :=
  let url := resolve_callback_host explicit envOverride defaultHost ++ ":" ++ toString port
  ({ a with base_url := url },
   { node_id := a.node_id, base_url := url,
     reasoner_ids := a.reasoner_ids, skill_ids := a.skill_ids })

/-! ## Capability declaration surface (agent decorators) -/

/-- One reasoner declaration: the function's name, the optionally declared
custom capability name, and the handler. -/
structure ReasonerDecl (α : Type) where
  funcName : String
  declaredName : Option String
  handler : α → Except String α

/-- The capability id a declaration exposes: the declared custom name when
present, else the function name. -/
def exposedId {α : Type} (d : ReasonerDecl α) : String :=
  d.declaredName.getD d.funcName

/-- Modelled from the spec and the behavior pinned by
src/sdk/python/tests/test_agent_integration.py: the inbound HTTP route of
a reasoner is registered under the original function name, not the
declared custom name. -/
def routePath {α : Type} (d : ReasonerDecl α) : String :=
  "/reasoners/" ++ d.funcName

/-- The declaration list of one agent. -/
structure AgentSurface (α : Type) where
  decls : List (ReasonerDecl α)

/-- The capability ids exposed in the agent's reasoner list. -/
def reasonerIds {α : Type} (a : AgentSurface α) : List String :=
  a.decls.map exposedId

/-- Whether the agent's attribute surface exposes the given name. -/
def hasAttr {α : Type} (a : AgentSurface α) (attrName : String) : Bool :=
  (reasonerIds a).contains attrName

/-- A synchronous POST to one of the agent's reasoner routes. -/
def postInvoke {α : Type} (a : AgentSurface α) (path : String) (payload : α) :
    Response α :=
  match a.decls.find? (fun d => routePath d == path) with
  | none => ⟨404, RStatus.notFound, none, none⟩
  | some d =>
    match d.handler payload with
    | Except.ok v => ⟨200, RStatus.succeeded, some v, none⟩
    | Except.error e => ⟨500, RStatus.failed, none, some e⟩

/-- An agent surface holding one reasoner declared under a custom name. -/
def singleDecl {α : Type} (fn custom : String) (handler : α → Except String α) :
    AgentSurface α :=
  { decls := [{ funcName := fn, declaredName := some custom, handler := handler }] }

/-! ### Concrete fixtures mirroring the test-suite's agents -/

/-- A capability echoing its payload, as in the detached-mode test. -/
def echoCap : Capability Nat := { id := "echo", handler := fun n => Except.ok n }

/-- A registry holding only the echo capability. -/
def echoReg : Registry Nat := { caps := [echoCap] }

/-- A capability doubling its payload, as in the synchronous-mode test. -/
def doubleCap : Capability Nat := { id := "double", handler := fun n => Except.ok (2 * n) }

/-- A registry holding only the doubling capability. -/
def doubleReg : Registry Nat := { caps := [doubleCap] }

/-- The empty registry. -/
def emptyReg : Registry Nat := { caps := [] }

/-! ### Character-level facts used by the normalization proofs -/

theorem uint32_le_iff (a b : UInt32) : a ≤ b ↔ a.toNat ≤ b.toNat := Iff.rfl

theorem toNat_ofNat_of_lt {n : Nat} (h : n < 55296) : (Char.ofNat n).toNat = n := by
  have hv : n.isValidChar := Or.inl h
  rw [Char.ofNat, dif_pos hv]
  rfl

theorem isUpper_iff {c : Char} : c.isUpper = true ↔ 65 ≤ c.toNat ∧ c.toNat ≤ 90 := by
  simp [Char.isUpper, uint32_le_iff, Char.toNat]
  norm_num

theorem isLower_iff {c : Char} : c.isLower = true ↔ 97 ≤ c.toNat ∧ c.toNat ≤ 122 := by
  simp [Char.isLower, uint32_le_iff, Char.toNat]
  norm_num

theorem isDigit_iff {c : Char} : c.isDigit = true ↔ 48 ≤ c.toNat ∧ c.toNat ≤ 57 := by
  simp [Char.isDigit, uint32_le_iff, Char.toNat]
  norm_num

theorem isAlphanum_iff {c : Char} : c.isAlphanum = true ↔
    (65 ≤ c.toNat ∧ c.toNat ≤ 90) ∨ (97 ≤ c.toNat ∧ c.toNat ≤ 122) ∨
    (48 ≤ c.toNat ∧ c.toNat ≤ 57) := by
  simp only [Char.isAlphanum, Char.isAlpha, Bool.or_eq_true]
  rw [isUpper_iff, isLower_iff, isDigit_iff]
  tauto

theorem toLower_eq_of_upper {c : Char} (h : 65 ≤ c.toNat ∧ c.toNat ≤ 90) :
    c.toLower = Char.ofNat (c.toNat + 32) := by
  rw [Char.toLower, if_pos]
  exact h

theorem toLower_eq_of_not_upper {c : Char} (h : ¬ (65 ≤ c.toNat ∧ c.toNat ≤ 90)) :
    c.toLower = c := by
  rw [Char.toLower, if_neg]
  exact h

theorem toLower_alphanum_and_fixed {c : Char} (h : c.isAlphanum = true) :
    (c.toLower).isAlphanum = true ∧ (c.toLower).toLower = c.toLower := by
  rcases isAlphanum_iff.mp h with hu | hl | hd
  · have he : c.toLower = Char.ofNat (c.toNat + 32) := toLower_eq_of_upper hu
    have ht : (c.toLower).toNat = c.toNat + 32 := by
      rw [he, toNat_ofNat_of_lt (by omega)]
    constructor
    · exact isAlphanum_iff.mpr (Or.inr (Or.inl (by omega)))
    · exact toLower_eq_of_not_upper (by omega)
  · have he : c.toLower = c := toLower_eq_of_not_upper (by omega)
    rw [he]
    exact ⟨h, he⟩
  · have he : c.toLower = c := toLower_eq_of_not_upper (by omega)
    rw [he]
    exact ⟨h, he⟩

theorem goodChar_of_alphanum {c : Char} (h : c.isAlphanum = true) :
    goodChar c.toLower = true := by
  obtain ⟨h1, h2⟩ := toLower_alphanum_and_fixed h
  simp [goodChar, h1, h2]

theorem goodChar_alphanum {c : Char} (h : goodChar c = true) : c.isAlphanum = true := by
  simp [goodChar] at h
  exact h.1

theorem goodChar_lower_fixed {c : Char} (h : goodChar c = true) : c.toLower = c := by
  simp [goodChar] at h
  exact h.2

/-! ### Structure of the segments produced by normalization -/

theorem segmentsAux_append {s : List Char} (hs : ∀ c ∈ s, goodChar c = true) :
    ∀ cs acc, segmentsAux (s ++ cs) acc = segmentsAux cs (s.reverse ++ acc) := by
  induction s with
  | nil => intro cs acc; simp
  | cons c s' ih =>
    intro cs acc
    have hc : goodChar c = true := hs c (List.mem_cons_self c s')
    have h1 : c.isAlphanum = true := goodChar_alphanum hc
    have h2 : c.toLower = c := goodChar_lower_fixed hc
    have ih' := ih (fun d hd => hs d (List.mem_cons_of_mem c hd)) cs (c :: acc)
    simp only [List.cons_append, segmentsAux, h1, if_true, h2, List.append_eq]
    rw [ih']
    simp [List.append_assoc]

theorem underscore_not_alphanum : ('_' : Char).isAlphanum = false := by decide

theorem segmentsAux_good : ∀ cs acc, (∀ c ∈ acc, goodChar c = true) →
    ∀ s ∈ segmentsAux cs acc, s ≠ [] ∧ ∀ c ∈ s, goodChar c = true := by
  intro cs
  induction cs with
  | nil =>
    intro acc hacc s hmem
    by_cases h : acc = []
    · simp [segmentsAux, h] at hmem
    · simp only [segmentsAux, if_neg h, List.mem_singleton] at hmem
      subst hmem
      refine ⟨by simpa using h, ?_⟩
      intro c hcmem
      exact hacc c (List.mem_reverse.mp hcmem)
  | cons c cs ih =>
    intro acc hacc s hmem
    by_cases h1 : c.isAlphanum = true
    · rw [segmentsAux, if_pos h1] at hmem
      refine ih (c.toLower :: acc) ?_ s hmem
      intro d hd
      rcases List.mem_cons.mp hd with hd | hd
      · subst hd; exact goodChar_of_alphanum h1
      · exact hacc d hd
    · rw [segmentsAux, if_neg h1] at hmem
      by_cases h2 : acc = []
      · rw [if_pos h2] at hmem
        exact ih acc hacc s hmem
      · rw [if_neg h2] at hmem
        rcases List.mem_cons.mp hmem with hs | hs
        · subst hs
          refine ⟨by simpa using h2, ?_⟩
          intro d hd
          exact hacc d (List.mem_reverse.mp hd)
        · exact ih [] (by simp) s hs

theorem segmentsAux_joinUnderscore :
    ∀ segs, (∀ s ∈ segs, s ≠ [] ∧ ∀ c ∈ s, goodChar c = true) →
    segmentsAux (joinUnderscore segs) [] = segs := by
  intro segs
  induction segs with
  | nil => intro _; simp [joinUnderscore, segmentsAux]
  | cons s rest ih =>
    intro hgood
    have hs := hgood s (List.mem_cons_self s rest)
    cases rest with
    | nil =>
      show segmentsAux (joinUnderscore [s]) [] = [s]
      have : joinUnderscore [s] = s := rfl
      rw [this, ← List.append_nil s, segmentsAux_append hs.2]
      simp [segmentsAux, hs.1]
    | cons s' rest' =>
      show segmentsAux (s ++ '_' :: joinUnderscore (s' :: rest')) [] = s :: s' :: rest'
      rw [segmentsAux_append hs.2]
      rw [segmentsAux, underscore_not_alphanum]
      simp only [Bool.false_eq_true, if_false, List.append_nil]
      have hne : s.reverse ≠ [] := by simpa using hs.1
      rw [if_neg hne]
      rw [ih (fun t ht => hgood t (List.mem_cons_of_mem s ht))]
      simp

theorem normalize_map_data (p : String) :
    (normalize p).map String.data = segmentsAux p.data [] := by
  rw [normalize, List.map_map]
  have : (String.data ∘ fun cs => (⟨cs⟩ : String)) = id := by
    funext cs
    rfl
  rw [this, List.map_id]

theorem normalize_idem (p : String) : normalize (normalizeStr p) = normalize p := by
  have hgood : ∀ s ∈ segmentsAux p.data [], s ≠ [] ∧ ∀ c ∈ s, goodChar c = true :=
    segmentsAux_good p.data [] (by simp)
  have hdata : (normalizeStr p).data = joinUnderscore (segmentsAux p.data []) := by
    rw [normalizeStr, joinSegs, normalize_map_data]
  conv_lhs => rw [normalize]
  rw [hdata, segmentsAux_joinUnderscore _ hgood]
  rfl

theorem normalizeStr_idem (p : String) : normalizeStr (normalizeStr p) = normalizeStr p := by
  rw [normalizeStr, normalize_idem]
  rfl

/-! ### Status Reporter lemmas -/

theorem reportGo_all_fail (f : Nat → Bool) (hf : ∀ n, f n = false) :
    ∀ m a, (reportGo f a m).1 = m := by
  intro m
  induction m with
  | zero => intro a; rfl
  | succ k ih =>
    intro a
    cases k with
    | zero => simp [reportGo, hf a]
    | succ j =>
      have hrec := ih (a + 1)
      have hunfold : reportGo f a (j + 1 + 1) =
          if f a = true then (1, ([] : List Nat))
          else if j + 1 = 0 then (1, [])
          else ((reportGo f (a + 1) (j + 1)).1 + 1,
                a :: (reportGo f (a + 1) (j + 1)).2) := rfl
      rw [hunfold, hf a]
      simp [hrec]

/-! ## Claim theorems -/

/-- C1: For the Status Reporter's delivery loop, if the first two attempts
fail and the third succeeds then with max_retries = 5 exactly 3 attempts
are made, the recorded waits are [1, 2], non-decreasing and all positive;
and whenever every delivery attempt fails, the loop stops after exactly
max_retries attempts. -/
theorem c1_status_reporter_retry_loop :
    (report (fun n => decide (3 ≤ n)) 5).1 = 3 ∧
    (report (fun n => decide (3 ≤ n)) 5).2 = [1, 2] ∧
    nondecreasing (report (fun n => decide (3 ≤ n)) 5).2 = true ∧
    (report (fun n => decide (3 ≤ n)) 5).2.all (fun w => decide (0 < w)) = true ∧
    ∀ f : Nat → Bool, (∀ n, f n = false) → ∀ m, (report f m).1 = m := by
  refine ⟨by decide, by decide, by decide, by decide, ?_⟩
  intro f hf m
  exact reportGo_all_fail f hf m 1

/-- Witness for C1: a delivery whose attempts always fail, with a budget
of 4, makes exactly 4 attempts. -/
theorem c1_witness : (report (fun _ => false) 4).1 = 4 :=
  c1_status_reporter_retry_loop.2.2.2.2 (fun _ => false) (fun _ => rfl) 4

/-- C4: A root invocation with no inbound workflow or parent headers gets
an empty parent_execution_id and the freshly minted workflow id (and the
freshly minted execution id); a nested local call derives a child context
whose parent_execution_id is the caller's execution_id and whose
workflow_id is the caller's workflow_id. -/
theorem c4_context_identity_propagation (mw me capId : String)
    (parent : ExecutionContext) (cmw cme cCapId : String) :
    (derive { workflow_id := none, execution_id := none, parent_execution_id := none }
        mw me capId).parent_execution_id = "" ∧
    (derive { workflow_id := none, execution_id := none, parent_execution_id := none }
        mw me capId).workflow_id = mw ∧
    (derive { workflow_id := none, execution_id := none, parent_execution_id := none }
        mw me capId).execution_id = me ∧
    (derive (localCallHeaders parent) cmw cme cCapId).parent_execution_id =
      parent.execution_id ∧
    (derive (localCallHeaders parent) cmw cme cCapId).workflow_id =
      parent.workflow_id := by
  refine ⟨rfl, rfl, rfl, rfl, rfl⟩

/-- C5: build_base_url resolves by strict precedence: a non-empty explicit
argument wins, else a non-empty environment-level override wins, and the
default synthesized from local host and port is used only when both are
empty. -/
theorem c5_base_url_precedence (explicit envOverride defaultHost : String)
    (port : Nat) :
    (explicit ≠ "" → build_base_url explicit envOverride defaultHost port = explicit) ∧
    (explicit = "" → envOverride ≠ "" →
      build_base_url explicit envOverride defaultHost port = envOverride) ∧
    (explicit = "" → envOverride = "" →
      build_base_url explicit envOverride defaultHost port =
        defaultHost ++ ":" ++ toString port) := by
  refine ⟨?_, ?_, ?_⟩
  · intro h1
    simp [build_base_url, h1]
  · intro h1 h2
    simp [build_base_url, h1, h2]
  · intro h1 h2
    simp [build_base_url, h1, h2]

/-- Witness for C5: with explicit argument "https://a" and environment
override "https://b" the result is "https://a"; with no explicit argument
it is "https://b"; with both empty it is the synthesized default. -/
theorem c5_witness :
    build_base_url "https://a" "https://b" "localhost" 8080 = "https://a" ∧
    build_base_url "" "https://b" "localhost" 8080 = "https://b" ∧
    build_base_url "" "" "localhost" 8080 = "localhost:8080" :=
  ⟨(c5_base_url_precedence "https://a" "https://b" "localhost" 8080).1 (by decide),
   (c5_base_url_precedence "" "https://b" "localhost" 8080).2.1 rfl (by decide),
   (c5_base_url_precedence "" "" "localhost" 8080).2.2 rfl rfl⟩

/-- C6: normalization maps "/Users/Profile-v1/" to ["users","profile","v1"],
dropping non-alphanumeric characters as separators; the composed
capability id is the deterministic image of the declared prefix and leaf
alone, so permuting the declaration list permutes the produced ids and
every declaration's composed id appears among the registered ids. -/
theorem c6_sanitization_and_determinism :
    normalize "/Users/Profile-v1/" = ["users", "profile", "v1"] ∧
    composedId "/Users/Profile-v1/" "fetch_order" = "users_profile_v1_fetch_order" ∧
    (∀ d1 d2 : List (String × String), d1.Perm d2 →
      (registeredIds d1).Perm (registeredIds d2)) ∧
    (∀ decls : List (String × String), ∀ pfx leaf, (pfx, leaf) ∈ decls →
      composedId pfx leaf ∈ registeredIds decls) := by
  refine ⟨by decide, by decide, ?_, ?_⟩
  · intro d1 d2 hperm
    exact hperm.map _
  · intro decls pfx leaf hmem
    exact List.mem_map_of_mem _ hmem

/-- Witness for C6: swapping two concrete declarations permutes the
registered ids, and a concrete declaration's composed id is registered. -/
theorem c6_witness :
    (registeredIds [("/Users/Profile-v1/", "fetch_order"), ("demo", "hello")]).Perm
      (registeredIds [("demo", "hello"), ("/Users/Profile-v1/", "fetch_order")]) ∧
    composedId "demo" "hello" ∈
      registeredIds [("/Users/Profile-v1/", "fetch_order"), ("demo", "hello")] :=
  ⟨c6_sanitization_and_determinism.2.2.1 _ _ (List.Perm.swap _ _ _),
   c6_sanitization_and_determinism.2.2.2 _ "demo" "hello" (by decide)⟩

/-- C7: normalization is idempotent — normalizing an already-normalized
prefix (the segments rendered back with the canonical separator) yields
the same segments, and the same normalized string. -/
theorem c7_normalize_idempotent (p : String) :
    normalize (normalizeStr p) = normalize p ∧
    normalizeStr (normalizeStr p) = normalizeStr p :=
  ⟨normalize_idem p, normalizeStr_idem p⟩

/-- Helper: shape of a detached dispatch when the capability resolves and
a coordinator-assigned execution id is inbound. -/
theorem dispatch_detached_eq {α : Type} (reg : Registry α) (capId : String)
    (payload : α) (h : Headers) (mw me eid : String) (cap : Capability α)
    (hres : resolve reg capId = some cap) (heid : h.execution_id = some eid) :
    dispatch reg true capId payload h mw me =
      Event.contextCreated (derive h mw me capId) ::
      Event.reply ⟨202, RStatus.accepted, none, none⟩ ::
        runDetached cap (derive h mw me capId) payload := by
  have hsome : h.execution_id.isSome = true := by rw [heid]; rfl
  unfold dispatch
  rw [hres]
  simp [hsome]

/-- C2: a detached-mode invocation (async enabled, coordinator-assigned
execution id inbound) is acknowledged with status accepted — distinct
from success and carrying no result — strictly before any
handler-completion event; and exactly one terminal status report, with
the terminal status and the result-or-error payload for that execution
id, is handed to the Status Reporter. -/
theorem c2_detached_ack_and_single_terminal_report {α : Type} (reg : Registry α)
    (capId : String) (payload : α) (h : Headers) (mw me eid : String)
    (cap : Capability α)
    (hres : resolve reg capId = some cap) (heid : h.execution_id = some eid) :
    (dispatch reg true capId payload h mw me)[1]? =
      some (Event.reply ⟨202, RStatus.accepted, none, none⟩) ∧
    (∀ k, (dispatch reg true capId payload h mw me)[k]? =
      some (Event.handlerCompleted eid) → 1 < k) ∧
    RStatus.accepted ≠ RStatus.succeeded ∧
    (dispatch reg true capId payload h mw me).filter isReport =
      [match cap.handler payload with
       | Except.ok v => Event.statusReport eid RStatus.succeeded (some v) none
       | Except.error e => Event.statusReport eid RStatus.failed none (some e)] := by
  have htr := dispatch_detached_eq reg capId payload h mw me eid cap hres heid
  have hexec : (derive h mw me capId).execution_id = eid := by
    simp [derive, heid]
  refine ⟨?_, ?_, by simp, ?_⟩
  · rw [htr]
    simp
  · intro k hk
    rw [htr] at hk
    match k with
    | 0 => simp at hk
    | 1 => simp at hk
    | k + 2 => omega
  · rw [htr]
    cases hrun : cap.handler payload with
    | ok v =>
      simp [runDetached, hrun, isReport, hexec]
    | error e =>
      simp [runDetached, hrun, isReport, hexec]

/-- Witness for C2: a concrete detached echo invocation is acknowledged
with 202/accepted and hands exactly one succeeded report carrying the
result to the Status Reporter. -/
theorem c2_witness :
    (dispatch echoReg true "echo" 7
      { workflow_id := none, execution_id := some "exec-123",
        parent_execution_id := none } "mw" "me")[1]? =
      some (Event.reply ⟨202, RStatus.accepted, none, none⟩) ∧
    (dispatch echoReg true "echo" 7
      { workflow_id := none, execution_id := some "exec-123",
        parent_execution_id := none } "mw" "me").filter isReport =
      [Event.statusReport "exec-123" RStatus.succeeded (some 7) none] :=
  ⟨(c2_detached_ack_and_single_terminal_report echoReg "echo" 7
      { workflow_id := none, execution_id := some "exec-123",
        parent_execution_id := none } "mw" "me" "exec-123" echoCap rfl rfl).1,
   (c2_detached_ack_and_single_terminal_report echoReg "echo" 7
      { workflow_id := none, execution_id := some "exec-123",
        parent_execution_id := none } "mw" "me" "exec-123" echoCap rfl rfl).2.2.2⟩

/-- C3: a synchronous-mode invocation of a capability whose handler
returns V replies with exactly V and a success status, and no status
report is ever produced for it. -/
theorem c3_sync_reply_is_the_report {α : Type} (reg : Registry α)
    (capId : String) (payload : α) (h : Headers) (mw me : String)
    (cap : Capability α) (v : α)
    (hres : resolve reg capId = some cap)
    (hv : cap.handler payload = Except.ok v) :
    Event.reply ⟨200, RStatus.succeeded, some v, none⟩ ∈
      dispatch reg false capId payload h mw me ∧
    (dispatch reg false capId payload h mw me).filter isReport = [] := by
  have htr : dispatch reg false capId payload h mw me =
      [Event.contextCreated (derive h mw me capId),
       Event.handlerCompleted (derive h mw me capId).execution_id,
       Event.reply ⟨200, RStatus.succeeded, some v, none⟩] := by
    unfold dispatch
    rw [hres]
    simp [hv]
  rw [htr]
  refine ⟨by simp, rfl⟩

/-- Witness for C3: a concrete synchronous invocation of the doubling
capability on 3 replies with 6 and produces no status report. -/
theorem c3_witness :
    Event.reply ⟨200, RStatus.succeeded, some 6, none⟩ ∈
      dispatch doubleReg false "double" 3
        { workflow_id := some "wf-123", execution_id := some "exec-root",
          parent_execution_id := none } "mw" "me" ∧
    (dispatch doubleReg false "double" 3
        { workflow_id := some "wf-123", execution_id := some "exec-root",
          parent_execution_id := none } "mw" "me").filter isReport = [] :=
  c3_sync_reply_is_the_report doubleReg "double" 3
    { workflow_id := some "wf-123", execution_id := some "exec-root",
      parent_execution_id := none } "mw" "me" doubleCap 6 rfl rfl

/-- C8: invoking an unregistered capability id yields exactly a not-found
failure reply, creates no ExecutionContext and sends no status report. -/
theorem c8_unregistered_not_found {α : Type} (reg : Registry α)
    (asyncEnabled : Bool) (capId : String) (payload : α) (h : Headers)
    (mw me : String) (hres : resolve reg capId = none) :
    dispatch reg asyncEnabled capId payload h mw me =
      [Event.reply ⟨404, RStatus.notFound, none, none⟩] ∧
    (∀ ctx, Event.contextCreated ctx ∉ dispatch reg asyncEnabled capId payload h mw me) ∧
    (dispatch reg asyncEnabled capId payload h mw me).filter isReport = [] := by
  have htr : dispatch reg asyncEnabled capId payload h mw me =
      [Event.reply ⟨404, RStatus.notFound, none, none⟩] := by
    unfold dispatch
    rw [hres]
  refine ⟨htr, ?_, ?_⟩
  · intro ctx hmem
    rw [htr] at hmem
    simp at hmem
  · rw [htr]
    rfl

/-- Witness for C8: invoking the id "missing" on the empty registry
returns only the not-found reply. -/
theorem c8_witness :
    dispatch emptyReg true "missing" 0
      { workflow_id := none, execution_id := some "exec-1",
        parent_execution_id := none } "mw" "me" =
      [Event.reply ⟨404, RStatus.notFound, none, none⟩] :=
  (c8_unregistered_not_found emptyReg true "missing" 0
    { workflow_id := none, execution_id := some "exec-1",
      parent_execution_id := none } "mw" "me" rfl).1

/-- C9: a capability registered with a declared custom name exposes the
custom id in the capability list and on the attribute surface, while the
inbound HTTP route is registered under the original function name: a POST
to the function-name path succeeds with the handler's result. -/
theorem c9_custom_name_route {α : Type} (fn custom : String)
    (handler : α → Except String α) (payload v : α)
    (hv : handler payload = Except.ok v) :
    custom ∈ reasonerIds (singleDecl fn custom handler) ∧
    hasAttr (singleDecl fn custom handler) custom = true ∧
    postInvoke (singleDecl fn custom handler) ("/reasoners/" ++ fn) payload =
      ⟨200, RStatus.succeeded, some v, none⟩ := by
  refine ⟨?_, ?_, ?_⟩
  · simp [reasonerIds, exposedId, singleDecl]
  · simp [hasAttr, reasonerIds, exposedId, singleDecl]
  · simp [postInvoke, routePath, hv, singleDecl]

/-- Witness for C9: the concrete declaration from the test-suite — function
generate_report declared as reports_generate — exposes the custom id and
answers a POST on the function-name route with the handler's result. -/
theorem c9_witness :
    "reports_generate" ∈ reasonerIds
      (singleDecl "generate_report" "reports_generate"
        (fun s : String => Except.ok s)) ∧
    hasAttr (singleDecl "generate_report" "reports_generate"
        (fun s : String => Except.ok s)) "reports_generate" = true ∧
    postInvoke (singleDecl "generate_report" "reports_generate"
        (fun s : String => Except.ok s))
      "/reasoners/generate_report" "r-123" =
      ⟨200, RStatus.succeeded, some "r-123", none⟩ :=
  c9_custom_name_route "generate_report" "reports_generate"
    (fun s => Except.ok s) "r-123" "r-123" rfl

/-- C10: the registered base address is the resolved callback host with
the serving port appended as a colon-port suffix, the agent's own
base_url is set to the same value, and in particular explicit host
"https://explicit.example.com" with port 9200 registers
"https://explicit.example.com:9200". -/
theorem c10_registration_appends_port (a : AgentState)
    (explicit envOverride defaultHost : String) (port : Nat) :
    (register_with_agentfield_server a explicit envOverride defaultHost port).2.base_url =
      resolve_callback_host explicit envOverride defaultHost ++ ":" ++ toString port ∧
    (register_with_agentfield_server a explicit envOverride defaultHost port).1.base_url =
      (register_with_agentfield_server a explicit envOverride defaultHost port).2.base_url ∧
    (register_with_agentfield_server a "https://explicit.example.com" "" "h" 9200).2.base_url =
      "https://explicit.example.com:9200" := by
  refine ⟨rfl, rfl, rfl⟩

end AgentField
